import Mathlib

/-!
# Verification of the DoubleTab conversation orchestrator and vector memory

Shallow embedding of the DoubleTab repository's conversation-orchestration
loop (`main.go`, `runMainWorkflow`), its tool dispatch (`pkg/tooling`), and
its vector-backed session memory and knowledge repository (`pkg/vector`).

Modelling conventions:
* PostgreSQL rows are Lean lists in insertion order; `SELECT ... ORDER BY
  ... LIMIT n` is a comparator sort followed by `List.take n`.
* pgvector's `<->` (Euclidean distance) is modelled by the *squared*
  Euclidean distance over exact rationals; squaring is strictly monotone on
  nonnegative reals, so every `ORDER BY embedding <-> q` comparison is
  preserved exactly.
* Effectful Go calls (embedding provider, database exec, LLM completion,
  file system) are parameters carrying their outcome (`Except`), matching
  Go's `(value, err)` returns.  A Go `panic` (failed type assertion) and a
  `log.Fatal` (process exit) are distinguished outcome constructors.
* The nondeterminism of the concurrent tool dispatch in `runMainWorkflow`
  is made explicit: the order in which goroutines complete (and hence the
  order of `responses.Store` calls) and the enumeration order of
  `sync.Map.Range` are universally quantified parameters, constrained only
  to what Go guarantees (completion order is a permutation of the batch;
  `Range` visits each stored key exactly once, in an unspecified order).
-/

namespace DoubleTab

/-! ## Embeddings and distance (pkg/vector) -/

/-- An embedding vector, as stored in the `VECTOR(dim)` columns. -/
abbrev Embedding := List ℚ

/-- Squared Euclidean distance between two embeddings; order-equivalent to
pgvector's `<->` operator used in `queryKnowledgeSQL` / `queryMemorySQL`. -/
def dist (a b : Embedding) : ℚ :=
  (List.zipWith (fun x y => (x - y) * (x - y)) a b).sum

/-! ## Session memory rows (pkg/vector/memory.go, pkg/vector/sql.go) -/

/-- One row of the `memory` table
(`id, session_id, role, content, created_at, embedding`); `created_at`
timestamps are modelled as naturals. -/
structure MemoryRow where
  session_id : String
  role : String
  content : String
  created_at : ℕ
  embedding : Embedding
deriving DecidableEq

/-- The `Memory` struct scanned from `queryMemorySQL` (role and content
columns only). -/
structure Memory where
  role : String
  content : String
deriving DecidableEq

/-- The compound ORDER BY of `queryMemorySQL`:
`ORDER BY created_at DESC, embedding <-> $2`.  Row `a` sorts no later than
row `b` iff `a` is more recent, or they are equally recent and `a`'s
embedding is at least as close to the query embedding `q`. -/
def memOrder (q : Embedding) (a b : MemoryRow) : Prop :=
  b.created_at < a.created_at ∨
    (a.created_at = b.created_at ∧ dist a.embedding q ≤ dist b.embedding q)

instance (q : Embedding) : DecidableRel (memOrder q) := fun a b => by
  unfold memOrder; exact inferInstance

instance (q : Embedding) : IsTotal MemoryRow (memOrder q) where
  total a b := by
    unfold memOrder
    rcases Nat.lt_trichotomy a.created_at b.created_at with h | h | h
    · exact Or.inr (Or.inl h)
    · rcases le_total (dist a.embedding q) (dist b.embedding q) with h2 | h2
      · exact Or.inl (Or.inr ⟨h, h2⟩)
      · exact Or.inr (Or.inr ⟨h.symm, h2⟩)
    · exact Or.inl (Or.inl h)

instance (q : Embedding) : IsTrans MemoryRow (memOrder q) where
  trans a b c hab hbc := by
    unfold memOrder at *
    rcases hab with h1 | ⟨h1, h1d⟩ <;> rcases hbc with h2 | ⟨h2, h2d⟩
    · exact Or.inl (h2.trans h1)
    · exact Or.inl (h2 ▸ h1)
    · exact Or.inl (h1 ▸ h2)
    · exact Or.inr ⟨h1.trans h2, h1d.trans h2d⟩

/-- `queryMemorySQL` (pkg/vector/sql.go): select role/content of the rows of
the current session, ordered by `created_at DESC, embedding <-> $2`,
`LIMIT 5`.  The full rows (before projection to `Memory`) are returned by
this helper so ordering properties can be stated about them. -/
def queryMemoryRows (table : List MemoryRow) (sid : String) (q : Embedding) :
    List MemoryRow :=
  (List.insertionSort (memOrder q) (table.filter (fun r => r.session_id = sid))).take 5

/-- `MemoryService.Query` (pkg/vector/memory.go): run `queryMemorySQL`,
reverse the result into chronological order, then build the joined
transcript.  The Go code allocates `memories := make([]string, len(mem))`
(length `len(mem)`, every slot the empty string) and then *appends* the
rendered `role: content` lines, so the joined string starts with
`len(mem)` empty lines — this slip is reproduced faithfully. -/
def MemoryService.Query (table : List MemoryRow) (sid : String) (q : Embedding) :
    String :=
  let mem := (queryMemoryRows table sid q).map (fun r => Memory.mk r.role r.content)
  let mem := mem.reverse
  let memories :=
    List.replicate mem.length "" ++ mem.map (fun m => m.role ++ ": " ++ m.content)
  String.intercalate "\n" memories

/-- `MemoryService.StoreEmbedding` (pkg/vector/memory.go): one
`INSERT INTO memory` via `NamedExecContext`; `writeErr` is the outcome of
the database exec (`some e` = the write failed with error `e`). -/
def MemoryService.StoreEmbedding (table : List MemoryRow) (sid role content : String)
    (now : ℕ) (embedding : Embedding) (writeErr : Option String) :
    Except String (List MemoryRow) :=
  match writeErr with
  | some e => .error e
  | none => .ok (table ++ [⟨sid, role, content, now, embedding⟩])

/-- `MemoryService.Store` (pkg/vector/memory.go): compute the content's
embedding via the embedding provider (`embed` carries that call's outcome),
propagating an embedding failure before any database write; otherwise
perform the durable write, propagating its failure. -/
def MemoryService.Store (embed : String → Except String Embedding)
    (table : List MemoryRow) (sid role content : String) (now : ℕ)
    (writeErr : Option String) : Except String (List MemoryRow) :=
  match embed content with
  | .error e => .error e
  | .ok embedding =>
      MemoryService.StoreEmbedding table sid role content now embedding writeErr

/-! ## Knowledge repository (pkg/vector/knowledge.go, pkg/vector/sql.go) -/

/-- One row of the `knowledge` table (`id, content, embedding`). -/
structure KnowledgeRow where
  content : String
  embedding : Embedding
deriving DecidableEq

/-- The ORDER BY of `queryKnowledgeSQL`: `ORDER BY embedding <-> $1`
(similarity only, no temporal component). -/
def knowOrder (q : Embedding) (a b : KnowledgeRow) : Prop :=
  dist a.embedding q ≤ dist b.embedding q

instance (q : Embedding) : DecidableRel (knowOrder q) := fun a b => by
  unfold knowOrder; exact inferInstance

instance (q : Embedding) : IsTotal KnowledgeRow (knowOrder q) where
  total a b := le_total _ _

instance (q : Embedding) : IsTrans KnowledgeRow (knowOrder q) where
  trans _ _ _ hab hbc := le_trans hab hbc

/-- `queryKnowledgeSQL` (pkg/vector/sql.go): `SELECT content FROM knowledge
ORDER BY embedding <-> $1 LIMIT 1`. -/
def queryKnowledgeSQL (table : List KnowledgeRow) (q : Embedding) : List String :=
  ((List.insertionSort (knowOrder q) table).take 1).map (fun r => r.content)

/-- `KnowledgeService.Query` (pkg/vector/knowledge.go): embed the query text
(`embed` carries the embedding provider call's outcome), propagate an
embedding failure, otherwise run `queryKnowledgeSQL` — an empty corpus
yields an empty row list, not an error. -/
def KnowledgeService.Query (embed : String → Except String Embedding)
    (table : List KnowledgeRow) (text : String) : Except String (List String) :=
  match embed text with
  | .error e => .error e
  | .ok q => .ok (queryKnowledgeSQL table q)

/-! ## Conversation orchestrator (main.go, runMainWorkflow) -/

/-- A tool call emitted by the model
(`openai.ChatCompletionMessageToolCall`): correlation id, tool name,
argument payload. -/
structure ToolCall where
  id : String
  name : String
  args : String
deriving DecidableEq

/-- A message appended to the live message list (`params.Messages.Value`)
by `runMainWorkflow`: the accumulated assistant message (possibly carrying
tool-call requests), a user message, or a Tool Result
(`openai.ToolMessage(toolID, resp)`). -/
inductive Msg where
  | assistant (content : String) (toolCalls : List ToolCall)
  | user (content : String)
  | tool (tool_call_id : String) (content : String)
deriving DecidableEq

/-- `sync.Map.Store` restricted to string keys/values: overwrite the entry
for the key in place if present, otherwise add a new entry. -/
def mapStore : List (String × String) → String → String → List (String × String)
  | [], k, v => [(k, v)]
  | p :: rest, k, v =>
      if p.1 = k then (k, v) :: rest else p :: mapStore rest k v

/-- `sync.Map.Load`-style lookup used to model what `Range` hands to its
callback for a given key. -/
def lookupMap : List (String × String) → String → Option String
  | [], _ => none
  | p :: rest, k => if p.1 = k then some p.2 else lookupMap rest k

/-- The keys currently present in the modelled `sync.Map`. -/
def mapKeys (m : List (String × String)) : List String :=
  m.map Prod.fst

/-- The contents of the `responses` `sync.Map` after `wg.Wait()`: each
goroutine runs `resp := ts.HandleToolCall(...)` and then
`responses.Store(toolCall.ID, resp)`; the stores happen in the goroutines'
completion order. -/
def buildResponses (handler : ToolCall → String) (completionOrder : List ToolCall) :
    List (String × String) :=
  completionOrder.foldl (fun m tc => mapStore m tc.id (handler tc)) []

/-- The value `responses.Range` observes for key `k`: the *last* value
stored under `k` in completion order (`sync.Map.Store` overwrites). -/
def lastStore (handler : ToolCall → String) (completionOrder : List ToolCall)
    (k : String) : Option String :=
  completionOrder.foldl (fun acc tc => if tc.id = k then some (handler tc) else acc)
    none

/-- Left-biased choice on options (used to chain map lookups through
accumulated stores). -/
def optOr (a b : Option String) : Option String :=
  match a with
  | some x => some x
  | none => b

/-- What the environment supplies for one iteration of the
`runMainWorkflow` loop, including the two sources of scheduling
nondeterminism of the tool turn. -/
structure TurnInput where
  /-- `stream.Err()` after draining the stream (`some e` = stream error). -/
  streamErr : Option String
  /-- `acc.Choices[0].Message.Content`. -/
  content : String
  /-- `acc.Choices[0].Message.ToolCalls`, in the order the model issued. -/
  toolCalls : List ToolCall
  /-- `acc.Choices[0].FinishReason`. -/
  finishReason : String
  /-- The next user utterance read in the stop branch. -/
  nextUser : String
  /-- Whether `ts.Mem.Store(ctx, role, content)` succeeds. -/
  storeOk : String → String → Bool
  /-- `ts.HandleToolCall`'s string result for a call. -/
  handler : ToolCall → String
  /-- The order the tool goroutines complete (a permutation of
  `toolCalls`). -/
  completionOrder : List ToolCall
  /-- The enumeration order of `responses.Range` (a permutation of the
  stored keys). -/
  rangeOrder : List String

/-- Outcome of one loop iteration: `log.Fatal` (process exit), or continue
with the messages appended to the live list this iteration and the memory
entries durably appended this iteration. -/
inductive StepResult where
  | fatal (msg : String)
  | next (msgs : List Msg) (memWrites : List (String × String))
deriving DecidableEq

/-- Whether a step outcome is a `log.Fatal` process exit. -/
def StepResult.isFatal : StepResult → Bool
  | .fatal _ => true
  | .next _ _ => false

/-- The Tool Result messages appended by the `responses.Range` join step of
`runMainWorkflow`: for each key the enumeration visits, the stored response
is wrapped as `openai.ToolMessage(toolID, resp)`. -/
def toolResultMsgs (t : TurnInput) : List Msg :=
  t.rangeOrder.filterMap
    (fun k => (lookupMap (buildResponses t.handler t.completionOrder) k).map
      (fun v => Msg.tool k v))

/-- The memory entries appended during the tool turn: every goroutine calls
`ts.Mem.Store(ctx, vector.RoleTool, resp)` unconditionally (a failed store
is only logged), so the successful writes are one `("tool", resp)` entry
per completed call, whatever its tool name. -/
def toolMemWrites (t : TurnInput) : List (String × String) :=
  t.completionOrder.filterMap
    (fun tc => if t.storeOk "tool" (t.handler tc)
      then some ("tool", t.handler tc) else none)

/-- One iteration of the `runMainWorkflow` loop (main.go, lines 166-258):
a stream error is `log.Fatal`; with no tool calls and finish reason
`"stop"`, the assistant message is stored (failure only logged) and
appended, the next user input is read, stored (failure only logged) and
appended; otherwise the assistant message is appended and the concurrent
tool turn runs, joining results via the `responses` map. -/
def runTurn (t : TurnInput) : StepResult :=
  match t.streamErr with
  | some e => .fatal ("Failed to stream completion: " ++ e)
  | none =>
    if t.toolCalls = [] ∧ t.finishReason = "stop" then
      let mem1 := if t.storeOk "assistant" t.content
        then [("assistant", t.content)] else []
      let mem2 := if t.storeOk "user" t.nextUser
        then mem1 ++ [("user", t.nextUser)] else mem1
      .next [Msg.assistant t.content [], Msg.user t.nextUser] mem2
    else
      .next (Msg.assistant t.content t.toolCalls :: toolResultMsgs t)
        (toolMemWrites t)

/-- The stores `runMainWorkflow` performs before entering the loop
(main.go, lines 159-164): the system prompt and the first user message;
*either* failure is `log.Fatal`. -/
def preLoopStores (storeOk : String → String → Bool)
    (systemPrompt question : String) : StepResult :=
  if storeOk "system" systemPrompt then
    if storeOk "user" question then
      .next [] [("system", systemPrompt), ("user", question)]
    else .fatal "Failed to store user message"
  else .fatal "Failed to store system message"

/-- The correlation ids carried by the Tool Result messages of a message
list, in order. -/
def msgToolIds (msgs : List Msg) : List String :=
  msgs.filterMap (fun m =>
    match m with
    | .tool k _ => some k
    | _ => none)

/-! ## Sub-agent loop (pkg/tooling/tooling.go, Agent.Run) -/

/-- `QueryMemoryToolName` (pkg/tooling). -/
def QueryMemoryToolName : String := "query_memory"

/-- The body of the sequential tool loop inside `Agent.Run` (tooling.go,
lines 124-138) for one call: append the Tool Result message and, *unless
the tool is the memory-query tool*, store the result to Session Memory
tagged `role=tool` (store failure only logged). -/
def agentStep (handler : ToolCall → String) (storeOk : String → String → Bool)
    (acc : List Msg × List (String × String)) (tc : ToolCall) :
    List Msg × List (String × String) :=
  let resp := handler tc
  let msgs := acc.1 ++ [Msg.tool tc.id resp]
  let mem :=
    if tc.name = QueryMemoryToolName then acc.2
    else if storeOk "tool" resp then acc.2 ++ [("tool", resp)] else acc.2
  (msgs, mem)

/-- The sequential tool pass of `Agent.Run` over a batch: messages appended
and memory entries successfully written. -/
def agentRunToolPass (handler : ToolCall → String)
    (storeOk : String → String → Bool) (toolCalls : List ToolCall) :
    List Msg × List (String × String) :=
  toolCalls.foldl (agentStep handler storeOk) ([], [])

/-! ## Tool handlers as outcome functions (pkg/tooling) -/

/-- A JSON value as produced by `json.Unmarshal` into
`map[string]interface{}`; a missing key and JSON `null` both read back as
the nil interface, modelled by `null`; `other` stands for the remaining
shapes (arrays, nested objects), which like `num`/`boolean`/`null` are not
strings. -/
inductive JValue where
  | str (s : String)
  | num (q : ℚ)
  | boolean (b : Bool)
  | null
  | other
deriving DecidableEq

/-- Go map indexing `args[k]` on the unmarshalled arguments: the stored
value, or the nil interface (`null`) when the key is absent. -/
def goMapIndex (args : List (String × JValue)) (k : String) : JValue :=
  match args.find? (fun p => p.1 = k) with
  | some p => p.2
  | none => JValue.null

/-- Whether a JSON value is a string — exactly the condition under which
the bare Go type assertion `v.(string)` succeeds instead of panicking. -/
def JValue.isStr : JValue → Bool
  | .str _ => true
  | _ => false

/-- Outcome of running one Go tool handler: a normal string result, a
runtime panic (failed bare type assertion), or a `log.Fatal` process
exit. -/
inductive GoOutcome where
  | ret (s : String)
  | panics (msg : String)
  | fatal (msg : String)
deriving DecidableEq

/-- Whether a handler outcome is an ordinary string result. -/
def GoOutcome.isRet : GoOutcome → Bool
  | .ret _ => true
  | _ => false

/-- Environment of effect outcomes for `Service.GenerateOpenAPISpec`
(pkg/tooling/openapi3.go): the `json.Unmarshal` outcome on the argument
payload, the LLM completion, and the three file-system steps. -/
structure OpenAPIEnv where
  unmarshal : Except String (List (String × JValue))
  completion : Except String String
  boilerplate : Except String Unit
  createFile : Except String Unit
  writeFile : Except String Unit

/-- `Service.GenerateOpenAPISpec` (pkg/tooling/openapi3.go): unmarshal
failure returns a descriptive string; the bare type assertion
`args["user_input"].(string)` panics unless the field holds a string; a
failed LLM completion is `log.Fatal`; file-system failures return
descriptive strings; otherwise the generated spec is returned. -/
def GenerateOpenAPISpec (env : OpenAPIEnv) : GoOutcome :=
  match env.unmarshal with
  | .error e => .ret ("Failed to unmarshal function arguments: " ++ e)
  | .ok args =>
    match goMapIndex args "user_input" with
    | .str _userInput =>
      match env.completion with
      | .error _ => .fatal "Failed to get completion"
      | .ok resp =>
        match env.boilerplate with
        | .error e => .ret ("Failed to create boilerplate: " ++ e)
        | .ok _ =>
          match env.createFile with
          | .error e => .ret ("Failed to create openapi spec file: " ++ e)
          | .ok _ =>
            match env.writeFile with
            | .error e => .ret ("Failed to write openapi spec file: " ++ e)
            | .ok _ => .ret resp
    | _ => .panics "interface conversion"

/-- Environment of effect outcomes for `Service.QueryKnowledgeBase`
(pkg/tooling/knowledge.go). -/
structure QueryKBEnv where
  unmarshal : Except String (List (String × JValue))
  ksQuery : Except String (List String)

/-- `Service.QueryKnowledgeBase` (pkg/tooling/knowledge.go): unmarshal
failure returns a descriptive string; the bare type assertion
`args["user_input"].(string)` panics unless the field holds a string; a
failed knowledge query is logged and returned as a descriptive string;
otherwise the matched rows are newline-joined. -/
def QueryKnowledgeBase (env : QueryKBEnv) : GoOutcome :=
  match env.unmarshal with
  | .error e => .ret ("Failed to unmarshal function arguments: " ++ e)
  | .ok args =>
    match goMapIndex args "user_input" with
    | .str _userInput =>
      match env.ksQuery with
      | .error e => .ret ("Failed to query knowledge base: " ++ e)
      | .ok rows => .ret (String.intercalate "\n" rows)
    | _ => .panics "interface conversion"

/-- Environment of effect outcomes for `Service.BuildCode`
(pkg/tooling/build.go): `filepath.Abs` and `go build`'s
`CombinedOutput` (error message and combined output text on failure). -/
structure BuildEnv where
  absRoot : Except String String
  build : Except (String × String) Unit

/-- `Service.BuildCode` (pkg/tooling/build.go): every failure, including a
failed build, is returned as a descriptive string result. -/
def BuildCode (env : BuildEnv) : GoOutcome :=
  match env.absRoot with
  | .error e => .ret ("Failed to get absolute path of project root: " ++ e)
  | .ok _ =>
    match env.build with
    | .error eo => .ret ("go build failed: " ++ eo.1 ++ "\n" ++ eo.2)
    | .ok _ => .ret "Code built successfully"

/-- `Service.ListTables` (pkg/tooling/build.go, handlers revision): a failed
database query is `log.Fatal`; otherwise the table names are joined. -/
def ListTables (dbRows : Except String (List String)) : GoOutcome :=
  match dbRows with
  | .error _ => .fatal "Failed to query database"
  | .ok tables => .ret (String.intercalate ", " tables)

/-! ## Concrete turn inputs used by counterexamples -/

/-- A two-call batch (ids `"a"`, `"b"`) where `"b"`'s goroutine completes
first and `Range` happens to enumerate `"b"` before `"a"`. -/
def outOfOrderTurn : TurnInput where
  streamErr := none
  content := "working on it"
  toolCalls := [⟨"a", "generate_spec", "x"⟩, ⟨"b", "list_tables", "y"⟩]
  finishReason := "tool_calls"
  nextUser := ""
  storeOk := fun _ _ => true
  handler := fun tc => "result-" ++ tc.id
  completionOrder := [⟨"b", "list_tables", "y"⟩, ⟨"a", "generate_spec", "x"⟩]
  rangeOrder := ["b", "a"]

/-- A stop-branch turn whose assistant-message store fails. -/
def assistantStoreFailTurn : TurnInput where
  streamErr := none
  content := "plan"
  toolCalls := []
  finishReason := "stop"
  nextUser := "go on"
  storeOk := fun role _ => role != "assistant"
  handler := fun _ => ""
  completionOrder := []
  rangeOrder := []

/-- A batch consisting of one `query_memory` call, with all memory stores
succeeding. -/
def queryMemoryTurn : TurnInput where
  streamErr := none
  content := "recalling"
  toolCalls := [⟨"m1", "query_memory", "q"⟩]
  finishReason := "tool_calls"
  nextUser := ""
  storeOk := fun _ _ => true
  handler := fun _ => "recalled stuff"
  completionOrder := [⟨"m1", "query_memory", "q"⟩]
  rangeOrder := ["m1"]

/-- A batch of two calls sharing the id `"a"`; the second-listed call
completes last. -/
def duplicateIdTurn : TurnInput where
  streamErr := none
  content := "dup"
  toolCalls := [⟨"a", "generate_spec", "x"⟩, ⟨"a", "list_tables", "y"⟩]
  finishReason := "tool_calls"
  nextUser := ""
  storeOk := fun _ _ => true
  handler := fun tc => "result-" ++ tc.name
  completionOrder := [⟨"a", "generate_spec", "x"⟩, ⟨"a", "list_tables", "y"⟩]
  rangeOrder := ["a"]

/-! ## Helper lemmas about the `sync.Map` model -/

theorem lookup_mapStore (m : List (String × String)) (k v k' : String) :
    lookupMap (mapStore m k v) k' = if k = k' then some v else lookupMap m k' := by
  induction m with
  | nil => simp [mapStore, lookupMap]
  | cons p rest ih =>
      by_cases hpk : p.1 = k
      · simp only [mapStore, if_pos hpk]
        by_cases h : k = k'
        · simp [lookupMap, h]
        · have hp : ¬ p.1 = k' := fun hh => h (hpk.symm.trans hh)
          simp [lookupMap, h, hp]
      · simp only [mapStore, if_neg hpk]
        by_cases h2 : p.1 = k'
        · have hk : ¬ k = k' := fun hh => hpk (h2.trans hh.symm)
          simp [lookupMap, h2, hk]
        · simp [lookupMap, h2, ih]

theorem mapKeys_mapStore (m : List (String × String)) (k v : String) :
    mapKeys (mapStore m k v) =
      if k ∈ mapKeys m then mapKeys m else mapKeys m ++ [k] := by
  induction m with
  | nil => simp [mapStore, mapKeys]
  | cons p rest ih =>
      by_cases hpk : p.1 = k
      · simp [mapStore, mapKeys, hpk]
      · have hne : ¬ k = p.1 := fun h => hpk h.symm
        simp only [mapStore, if_neg hpk, mapKeys, List.map_cons] at ih ⊢
        rw [ih]
        by_cases hmem : k ∈ List.map Prod.fst rest
        · simp [hmem, hne]
        · simp [hmem, hne]

theorem mem_mapKeys_mapStore (m : List (String × String)) (k v k' : String) :
    k' ∈ mapKeys (mapStore m k v) ↔ k' = k ∨ k' ∈ mapKeys m := by
  rw [mapKeys_mapStore]
  by_cases hmem : k ∈ mapKeys m
  · rw [if_pos hmem]
    constructor
    · exact fun h => Or.inr h
    · rintro (rfl | h)
      · exact hmem
      · exact h
  · rw [if_neg hmem]
    simp only [List.mem_append, List.mem_singleton]
    tauto

theorem nodup_mapKeys_mapStore (m : List (String × String)) (k v : String)
    (h : (mapKeys m).Nodup) : (mapKeys (mapStore m k v)).Nodup := by
  rw [mapKeys_mapStore]
  by_cases hmem : k ∈ mapKeys m
  · rw [if_pos hmem]; exact h
  · rw [if_neg hmem]
    rw [List.nodup_append]
    refine ⟨h, List.nodup_singleton k, ?_⟩
    intro a ha hb
    rw [List.mem_singleton] at hb
    exact hmem (hb ▸ ha)

theorem nodup_mapKeys_buildFrom (handler : ToolCall → String)
    (co : List ToolCall) :
    ∀ m : List (String × String), (mapKeys m).Nodup →
      (mapKeys (co.foldl (fun m tc => mapStore m tc.id (handler tc)) m)).Nodup := by
  induction co with
  | nil => intro m hm; simpa using hm
  | cons tc co ih =>
      intro m hm
      exact ih _ (nodup_mapKeys_mapStore m tc.id (handler tc) hm)

theorem nodup_mapKeys_buildResponses (handler : ToolCall → String)
    (co : List ToolCall) : (mapKeys (buildResponses handler co)).Nodup :=
  nodup_mapKeys_buildFrom handler co [] (by simp [mapKeys])

theorem mem_mapKeys_buildFrom (handler : ToolCall → String) (co : List ToolCall) :
    ∀ (m : List (String × String)) (k : String),
      k ∈ mapKeys (co.foldl (fun m tc => mapStore m tc.id (handler tc)) m) ↔
        k ∈ co.map ToolCall.id ∨ k ∈ mapKeys m := by
  induction co with
  | nil => intro m k; simp
  | cons tc co ih =>
      intro m k
      rw [List.foldl_cons, ih, mem_mapKeys_mapStore]
      simp only [List.map_cons, List.mem_cons]
      tauto

theorem mem_mapKeys_buildResponses (handler : ToolCall → String)
    (co : List ToolCall) (k : String) :
    k ∈ mapKeys (buildResponses handler co) ↔ k ∈ co.map ToolCall.id := by
  unfold buildResponses
  rw [mem_mapKeys_buildFrom]
  simp [mapKeys]

theorem lookupMap_isSome (m : List (String × String)) (k : String) :
    (lookupMap m k).isSome ↔ k ∈ mapKeys m := by
  induction m with
  | nil => simp [lookupMap, mapKeys]
  | cons p rest ih =>
      by_cases h : p.1 = k <;> simp [lookupMap, mapKeys, h, ih]
      exact fun hk => absurd hk.symm h

theorem lastStore_from (handler : ToolCall → String) (k : String) :
    ∀ (co : List ToolCall) (acc : Option String),
      co.foldl (fun acc tc => if tc.id = k then some (handler tc) else acc) acc =
        optOr (lastStore handler co k) acc := by
  intro co
  induction co with
  | nil => intro acc; simp [lastStore, optOr]
  | cons tc co ih =>
      intro acc
      show co.foldl (fun acc tc => if tc.id = k then some (handler tc) else acc)
          (if tc.id = k then some (handler tc) else acc) =
        optOr (co.foldl (fun acc tc => if tc.id = k then some (handler tc) else acc)
          (if tc.id = k then some (handler tc) else none)) acc
      rw [ih, ih]
      by_cases hc : tc.id = k <;> cases hL : lastStore handler co k <;>
        simp [optOr, hc, hL]

theorem lastStore_cons (handler : ToolCall → String) (tc : ToolCall)
    (co : List ToolCall) (k : String) :
    lastStore handler (tc :: co) k =
      optOr (lastStore handler co k)
        (if tc.id = k then some (handler tc) else none) := by
  show co.foldl (fun acc tc => if tc.id = k then some (handler tc) else acc)
      (if tc.id = k then some (handler tc) else none) = _
  rw [lastStore_from]

theorem lookup_buildFrom (handler : ToolCall → String) (k : String) :
    ∀ (co : List ToolCall) (m : List (String × String)),
      lookupMap (co.foldl (fun m tc => mapStore m tc.id (handler tc)) m) k =
        optOr (lastStore handler co k) (lookupMap m k) := by
  intro co
  induction co with
  | nil => intro m; simp [lastStore, optOr]
  | cons tc co ih =>
      intro m
      rw [List.foldl_cons, ih, lookup_mapStore, lastStore_cons]
      by_cases hc : tc.id = k <;> cases hL : lastStore handler co k <;>
        simp [optOr, hc, hL]

theorem lookup_buildResponses (handler : ToolCall → String) (co : List ToolCall)
    (k : String) :
    lookupMap (buildResponses handler co) k = lastStore handler co k := by
  unfold buildResponses
  rw [lookup_buildFrom]
  cases hL : lastStore handler co k <;> simp [optOr, lookupMap]

theorem lastStore_eq_some (handler : ToolCall → String) (co : List ToolCall)
    (k v : String) (h : lastStore handler co k = some v) :
    ∃ tc, tc ∈ co ∧ tc.id = k ∧ v = handler tc := by
  induction co with
  | nil => simp [lastStore] at h
  | cons tc co ih =>
      rw [lastStore_cons] at h
      cases hL : lastStore handler co k with
      | some w =>
          rw [hL] at h
          simp only [optOr] at h
          obtain ⟨tc', h1, h2, h3⟩ := ih (by rw [hL]; exact h)
          exact ⟨tc', List.mem_cons_of_mem tc h1, h2, h3⟩
      | none =>
          rw [hL] at h
          simp only [optOr] at h
          by_cases hc : tc.id = k
          · rw [if_pos hc] at h
            exact ⟨tc, List.mem_cons_self tc co, hc, (Option.some.inj h).symm⟩
          · rw [if_neg hc] at h
            exact absurd h (by simp)

theorem mapStore_of_notMem (m : List (String × String)) (k v : String)
    (h : k ∉ mapKeys m) : mapStore m k v = m ++ [(k, v)] := by
  induction m with
  | nil => rfl
  | cons p rest ih =>
      simp only [mapKeys, List.map_cons, List.mem_cons] at h
      push_neg at h
      have h1 : ¬ p.1 = k := fun hh => h.1 hh.symm
      simp only [mapStore, if_neg h1, List.cons_append]
      rw [ih (by simpa [mapKeys] using h.2)]

theorem buildFrom_of_nodup (handler : ToolCall → String) :
    ∀ (co : List ToolCall) (m : List (String × String)),
      (co.map ToolCall.id).Nodup →
      (∀ tc ∈ co, tc.id ∉ mapKeys m) →
      co.foldl (fun m tc => mapStore m tc.id (handler tc)) m =
        m ++ co.map (fun tc => (tc.id, handler tc)) := by
  intro co
  induction co with
  | nil => intro m _ _; simp
  | cons tc co ih =>
      intro m hnd hdisj
      have hnd' : (co.map ToolCall.id).Nodup :=
        (List.nodup_cons.mp (by simpa using hnd)).2
      have hid : tc.id ∉ co.map ToolCall.id :=
        (List.nodup_cons.mp (by simpa using hnd)).1
      have hdisj' : ∀ tc' ∈ co, tc'.id ∉ mapKeys (m ++ [(tc.id, handler tc)]) := by
        intro tc' htc' hmem
        simp only [mapKeys, List.map_append, List.mem_append, List.map_cons,
          List.map_nil, List.mem_singleton] at hmem
        rcases hmem with h | h
        · exact hdisj tc' (List.mem_cons_of_mem tc htc') (by simpa [mapKeys] using h)
        · exact hid (h ▸ List.mem_map_of_mem ToolCall.id htc')
      rw [List.foldl_cons,
        mapStore_of_notMem m tc.id (handler tc) (hdisj tc (List.mem_cons_self tc co)),
        ih _ hnd' hdisj']
      simp

theorem buildResponses_of_nodup (handler : ToolCall → String)
    (co : List ToolCall) (hnd : (co.map ToolCall.id).Nodup) :
    buildResponses handler co = co.map (fun tc => (tc.id, handler tc)) := by
  unfold buildResponses
  rw [buildFrom_of_nodup handler co [] hnd (by simp [mapKeys])]
  simp

theorem filterMap_length_of_isSome {α β : Type} (f : α → Option β) :
    ∀ l : List α, (∀ x ∈ l, (f x).isSome) → (l.filterMap f).length = l.length := by
  intro l
  induction l with
  | nil => simp
  | cons x l ih =>
      intro h
      obtain ⟨v, hv⟩ := Option.isSome_iff_exists.mp (h x (List.mem_cons_self x l))
      rw [List.filterMap_cons_some hv]
      simp [ih (fun y hy => h y (List.mem_cons_of_mem x hy))]

theorem msgToolIds_filterMap (m : List (String × String)) :
    ∀ ro : List String, (∀ k ∈ ro, (lookupMap m k).isSome) →
      msgToolIds (ro.filterMap
        (fun k => (lookupMap m k).map (fun v => Msg.tool k v))) = ro := by
  intro ro
  induction ro with
  | nil => intro _; rfl
  | cons k ro ih =>
      intro h
      obtain ⟨v, hv⟩ := Option.isSome_iff_exists.mp (h k (List.mem_cons_self k ro))
      have ih' := ih (fun y hy => h y (List.mem_cons_of_mem k hy))
      simp only [List.filterMap_cons, hv, Option.map_some', msgToolIds] at ih' ⊢
      rw [ih']

/-- Characterization of the sequential tool pass of `Agent.Run`: messages
are one Tool Result per call in issue order, and the memory writes are
exactly the successful stores of the non-memory-query calls, in order. -/
theorem agentRunToolPass_from (handler : ToolCall → String)
    (storeOk : String → String → Bool) :
    ∀ (toolCalls : List ToolCall) (acc : List Msg × List (String × String)),
      toolCalls.foldl (agentStep handler storeOk) acc =
        (acc.1 ++ toolCalls.map (fun tc => Msg.tool tc.id (handler tc)),
         acc.2 ++ toolCalls.filterMap (fun tc =>
           if tc.name = QueryMemoryToolName then none
           else if storeOk "tool" (handler tc) then some ("tool", handler tc)
           else none)) := by
  intro toolCalls
  induction toolCalls with
  | nil => intro acc; simp
  | cons tc tcs ih =>
      intro acc
      rw [List.foldl_cons, ih]
      unfold agentStep
      by_cases hq : tc.name = QueryMemoryToolName
      · simp [hq]
      · by_cases hs : storeOk "tool" (handler tc) <;> simp [hq, hs]

/-! ## Claim C2 -/

/-- **C2.** For every session-memory table state and query embedding, the
selection of `queryMemorySQL` returns at most 5 rows, all of the current
session, sorted primarily by recency (most recent first) and secondarily by
embedding distance to the query; and the reversal performed by
`MemoryService.Query` puts them in non-decreasing chronological order. -/
theorem memory_query_bounded_recency_then_distance_chronological
    (table : List MemoryRow) (sid : String) (q : Embedding) :
    (queryMemoryRows table sid q).length ≤ 5 ∧
    (∀ r ∈ queryMemoryRows table sid q, r.session_id = sid) ∧
    List.Sorted (memOrder q) (queryMemoryRows table sid q) ∧
    List.Sorted (fun a b => a.created_at ≤ b.created_at)
      (queryMemoryRows table sid q).reverse := by
  unfold queryMemoryRows
  refine ⟨?_, ?_, ?_, ?_⟩
  · simpa using Nat.min_le_left 5 _
  · intro r hr
    have h1 : r ∈ List.insertionSort (memOrder q)
        (table.filter (fun r => r.session_id = sid)) :=
      List.mem_of_mem_take hr
    have h2 : r ∈ table.filter (fun r => r.session_id = sid) :=
      (List.perm_insertionSort (memOrder q) _).mem_iff.mp h1
    have h3 := (List.mem_filter.mp h2).2
    exact of_decide_eq_true h3
  · exact (List.sorted_insertionSort (memOrder q) _).sublist (List.take_sublist _ _)
  · have hs : List.Sorted (memOrder q)
        ((List.insertionSort (memOrder q)
          (table.filter (fun r => r.session_id = sid))).take 5) :=
      (List.sorted_insertionSort (memOrder q) _).sublist (List.take_sublist _ _)
    rw [List.Sorted, List.pairwise_reverse]
    refine hs.imp ?_
    intro a b hab
    rcases hab with h | ⟨h, _⟩
    · exact Nat.le_of_lt h
    · exact Nat.le_of_eq h.symm

/-! ## Claim C3 -/

/-- **C3.** Evaluating the embedded `MemoryService.Query` at a memory state
holding a single entry (`role = "user"`, `content = "hi"`) of the current
session: because the Go code allocates `memories` with `make([]string,
len(mem))` and then appends, the transcript comes back with a leading empty
line (`"\nuser: hi"`), not the claimed plain `"user: hi"` newline-joined
transcript of the selected entries. -/
theorem memory_query_transcript_has_leading_empty_lines :
    MemoryService.Query [⟨"s1", "user", "hi", 0, [0]⟩] "s1" [0] = "\nuser: hi" ∧
    MemoryService.Query [⟨"s1", "user", "hi", 0, [0]⟩] "s1" [0] ≠ "user: hi" := by
  constructor <;> decide

/-! ## Claim C8 -/

/-- **C8.** For every corpus state and query text whose embedding call
succeeds, the Knowledge Repository query returns an empty result (not an
error) on an empty corpus, and otherwise returns exactly one entry whose
embedding distance to the query is minimal over the whole corpus. -/
theorem knowledge_query_returns_top1_nearest
    (embed : String → Except String Embedding) (table : List KnowledgeRow)
    (text : String) (q : Embedding) (h : embed text = .ok q) :
    (table = [] → KnowledgeService.Query embed table text = .ok []) ∧
    (table ≠ [] → ∃ row, row ∈ table ∧
      KnowledgeService.Query embed table text = .ok [row.content] ∧
      ∀ r ∈ table, dist row.embedding q ≤ dist r.embedding q) := by
  unfold KnowledgeService.Query
  rw [h]
  constructor
  · intro ht
    subst ht
    rfl
  · intro ht
    have hperm := List.perm_insertionSort (knowOrder q) table
    have hsorted := List.sorted_insertionSort (knowOrder q) table
    rcases hl : List.insertionSort (knowOrder q) table with _ | ⟨hd, tl⟩
    · rw [hl] at hperm
      exact absurd hperm.symm.eq_nil ht
    · rw [hl] at hperm hsorted
      refine ⟨hd, hperm.mem_iff.mp (List.mem_cons_self hd tl), ?_, ?_⟩
      · simp [queryKnowledgeSQL, hl]
      · intro r hr
        rcases List.mem_cons.mp (hperm.symm.mem_iff.mp hr) with h1 | h1
        · simp [h1]
        · exact List.rel_of_sorted_cons hsorted r h1

/-- Witness for C8 at a concrete corpus of two entries: the closer one is
returned, and the empty corpus yields an empty (non-error) result. -/
theorem knowledge_query_returns_top1_nearest_witness :
    ((fun _ : String => (Except.ok [0] : Except String Embedding)) "db?"
      = .ok [0]) ∧
    KnowledgeService.Query (fun _ => .ok [0]) [] "db?" = .ok [] ∧
    (∃ row, row ∈ [KnowledgeRow.mk "far" [10], KnowledgeRow.mk "near" [1]] ∧
      KnowledgeService.Query (fun _ => .ok [0])
        [KnowledgeRow.mk "far" [10], KnowledgeRow.mk "near" [1]] "db?"
        = .ok [row.content] ∧
      ∀ r ∈ [KnowledgeRow.mk "far" [10], KnowledgeRow.mk "near" [1]],
        dist row.embedding [0] ≤ dist r.embedding [0]) :=
  ⟨rfl,
   (knowledge_query_returns_top1_nearest (fun _ => .ok [0]) [] "db?" [0] rfl).1 rfl,
   (knowledge_query_returns_top1_nearest (fun _ => .ok [0])
      [KnowledgeRow.mk "far" [10], KnowledgeRow.mk "near" [1]] "db?" [0] rfl).2
      (by decide)⟩

/-! ## Claim C9 -/

/-- **C9.** `MemoryService.Store` computes the embedding first: if the
embedding call fails, that failure is returned and no durable write happens
(for every possible outcome of the write, including one that would
succeed); if the embedding succeeds and the durable write fails, the write
failure is returned; if both succeed, exactly the new row is appended. -/
theorem memory_store_embeds_first_and_propagates_failures
    (embed : String → Except String Embedding) (table : List MemoryRow)
    (sid role content : String) (now : ℕ) :
    (∀ e, embed content = .error e →
      ∀ writeErr, MemoryService.Store embed table sid role content now writeErr
        = .error e) ∧
    (∀ emb e, embed content = .ok emb →
      MemoryService.Store embed table sid role content now (some e) = .error e) ∧
    (∀ emb, embed content = .ok emb →
      MemoryService.Store embed table sid role content now none
        = .ok (table ++ [⟨sid, role, content, now, emb⟩])) := by
  refine ⟨?_, ?_, ?_⟩
  · intro e he writeErr
    unfold MemoryService.Store
    rw [he]
  · intro emb e he
    unfold MemoryService.Store
    rw [he]
    rfl
  · intro emb he
    unfold MemoryService.Store
    rw [he]
    rfl

/-- Witness for C9 at concrete inputs: a failing embedding provider, a
failing database write, and a fully successful store. -/
theorem memory_store_embeds_first_and_propagates_failures_witness :
    MemoryService.Store (fun _ => .error "embed down") [] "s" "user" "hi" 0 none
      = .error "embed down" ∧
    MemoryService.Store (fun _ => .ok [1]) [] "s" "user" "hi" 0 (some "db down")
      = .error "db down" ∧
    MemoryService.Store (fun _ => .ok [1]) [] "s" "user" "hi" 0 none
      = .ok [⟨"s", "user", "hi", 0, [1]⟩] :=
  ⟨(memory_store_embeds_first_and_propagates_failures
      (fun _ => .error "embed down") [] "s" "user" "hi" 0).1 "embed down" rfl none,
   (memory_store_embeds_first_and_propagates_failures
      (fun _ => .ok [1]) [] "s" "user" "hi" 0).2.1 [1] "db down" rfl,
   (memory_store_embeds_first_and_propagates_failures
      (fun _ => .ok [1]) [] "s" "user" "hi" 0).2.2 [1] rfl⟩

/-! ## Claim C1 -/

/-- **C1 (amended).** For every batch of tool calls with distinct ids,
every completion order of the concurrent handlers and every enumeration
order of `responses.Range`, the tool turn appends exactly N Tool Result
messages, each carrying the id of its originating call together with that
call's handler result, and the appended ids are a *permutation* of the
issued ids — but they appear in the `Range` enumeration order, which need
not be the order the calls were issued (see the counterexample). -/
theorem tool_batch_joins_all_results (t : TurnInput)
    (hids : (t.toolCalls.map ToolCall.id).Nodup)
    (hco : t.completionOrder.Perm t.toolCalls)
    (hro : t.rangeOrder.Perm
      (mapKeys (buildResponses t.handler t.completionOrder)))
    (hstream : t.streamErr = none)
    (hbranch : ¬(t.toolCalls = [] ∧ t.finishReason = "stop")) :
    runTurn t = .next (Msg.assistant t.content t.toolCalls :: toolResultMsgs t)
      (toolMemWrites t) ∧
    (toolResultMsgs t).length = t.toolCalls.length ∧
    (∀ m ∈ toolResultMsgs t, ∃ tc, tc ∈ t.toolCalls ∧
      m = Msg.tool tc.id (t.handler tc)) ∧
    (msgToolIds (toolResultMsgs t)).Perm (t.toolCalls.map ToolCall.id) := by
  have hcoids : (t.completionOrder.map ToolCall.id).Perm
      (t.toolCalls.map ToolCall.id) := hco.map ToolCall.id
  have hndco : (t.completionOrder.map ToolCall.id).Nodup := hcoids.symm.nodup hids
  have hkeys : mapKeys (buildResponses t.handler t.completionOrder) =
      t.completionOrder.map ToolCall.id := by
    rw [buildResponses_of_nodup t.handler t.completionOrder hndco]
    simp [mapKeys, List.map_map]
  have hall : ∀ k ∈ t.rangeOrder,
      (lookupMap (buildResponses t.handler t.completionOrder) k).isSome := by
    intro k hk
    rw [lookupMap_isSome]
    exact hro.mem_iff.mp hk
  have htr : toolResultMsgs t = t.rangeOrder.filterMap
      (fun k => (lookupMap (buildResponses t.handler t.completionOrder) k).map
        (fun v => Msg.tool k v)) := rfl
  have hmsgids : msgToolIds (toolResultMsgs t) = t.rangeOrder := by
    rw [htr]
    exact msgToolIds_filterMap (buildResponses t.handler t.completionOrder)
      t.rangeOrder hall
  refine ⟨?_, ?_, ?_, ?_⟩
  · simp only [runTurn, hstream]
    rw [if_neg hbranch]
  · rw [htr, filterMap_length_of_isSome _ t.rangeOrder
      (fun k hk => by simpa [Option.isSome_map] using hall k hk),
      hro.length_eq, hkeys, List.length_map, hco.length_eq]
  · intro m hm
    rw [htr] at hm
    obtain ⟨k, hk, hf⟩ := List.mem_filterMap.mp hm
    obtain ⟨v, hv, hmv⟩ : ∃ v,
        lookupMap (buildResponses t.handler t.completionOrder) k = some v ∧
          m = Msg.tool k v := by
      cases hL : lookupMap (buildResponses t.handler t.completionOrder) k with
      | none => rw [hL] at hf; simp at hf
      | some v =>
          rw [hL] at hf
          simp at hf
          exact ⟨v, rfl, hf.symm⟩
    rw [lookup_buildResponses] at hv
    obtain ⟨tc, htc, hid, hhv⟩ := lastStore_eq_some _ _ _ _ hv
    exact ⟨tc, hco.mem_iff.mp htc, by rw [hmv, hid, hhv]⟩
  · rw [hmsgids]
    exact hro.trans (hkeys ▸ hcoids)

/-- Witness for C1 (amended) on a concrete two-call batch whose goroutines
complete in reverse order. -/
theorem tool_batch_joins_all_results_witness :
    runTurn outOfOrderTurn = .next
      (Msg.assistant outOfOrderTurn.content outOfOrderTurn.toolCalls ::
        toolResultMsgs outOfOrderTurn) (toolMemWrites outOfOrderTurn) ∧
    (toolResultMsgs outOfOrderTurn).length = outOfOrderTurn.toolCalls.length ∧
    (∀ m ∈ toolResultMsgs outOfOrderTurn, ∃ tc, tc ∈ outOfOrderTurn.toolCalls ∧
      m = Msg.tool tc.id (outOfOrderTurn.handler tc)) ∧
    (msgToolIds (toolResultMsgs outOfOrderTurn)).Perm
      (outOfOrderTurn.toolCalls.map ToolCall.id) :=
  tool_batch_joins_all_results outOfOrderTurn (by decide) (by decide) (by decide)
    rfl (by decide)

/-- **C1 (counterexample).** On the concrete batch `["a", "b"]` whose
goroutine for `"b"` completes first and whose `Range` enumeration happens
to visit `"b"` before `"a"` (both perfectly legal executions of the Go
code), the Tool Results are appended in order `["b", "a"]`, not the issue
order `["a", "b"]`: the join step does *not* restore issue order. -/
theorem tool_batch_results_out_of_order_counterexample :
    ((outOfOrderTurn.toolCalls.map ToolCall.id).Nodup ∧
     outOfOrderTurn.completionOrder.Perm outOfOrderTurn.toolCalls ∧
     outOfOrderTurn.rangeOrder.Perm
       (mapKeys (buildResponses outOfOrderTurn.handler
         outOfOrderTurn.completionOrder))) ∧
    msgToolIds (toolResultMsgs outOfOrderTurn) = ["b", "a"] ∧
    outOfOrderTurn.toolCalls.map ToolCall.id = ["a", "b"] ∧
    msgToolIds (toolResultMsgs outOfOrderTurn) ≠
      outOfOrderTurn.toolCalls.map ToolCall.id := by
  refine ⟨⟨?_, ?_, ?_⟩, ?_, ?_, ?_⟩ <;> decide

/-! ## Claim C10 -/

/-- **C10.** The concurrent handler results are joined through a map keyed
by tool-call id: for every batch, completion order and `Range` order, the
appended Tool Results carry pairwise-distinct ids covering exactly the
batch's ids, and each carries the *last* value stored under its id in
completion order; consequently, on the concrete batch of two calls sharing
id `"a"`, only one Tool Result is produced (the later-completing handler's
result having overwritten the earlier one). -/
theorem tool_batch_map_keyed_by_id_collapses_duplicates :
    (∀ t : TurnInput,
      t.completionOrder.Perm t.toolCalls →
      t.rangeOrder.Perm (mapKeys (buildResponses t.handler t.completionOrder)) →
      ((msgToolIds (toolResultMsgs t)).Nodup ∧
       (∀ k, k ∈ msgToolIds (toolResultMsgs t) ↔
         k ∈ t.toolCalls.map ToolCall.id) ∧
       (∀ m ∈ toolResultMsgs t, ∃ k v, m = Msg.tool k v ∧
         lastStore t.handler t.completionOrder k = some v))) ∧
    ((toolResultMsgs duplicateIdTurn).length = 1 ∧
     duplicateIdTurn.toolCalls.length = 2 ∧
     toolResultMsgs duplicateIdTurn = [Msg.tool "a" "result-list_tables"] ∧
     duplicateIdTurn.completionOrder.Perm duplicateIdTurn.toolCalls ∧
     duplicateIdTurn.rangeOrder.Perm
       (mapKeys (buildResponses duplicateIdTurn.handler
         duplicateIdTurn.completionOrder))) := by
  constructor
  · intro t hco hro
    have hall : ∀ k ∈ t.rangeOrder,
        (lookupMap (buildResponses t.handler t.completionOrder) k).isSome := by
      intro k hk
      rw [lookupMap_isSome]
      exact hro.mem_iff.mp hk
    have htr : toolResultMsgs t = t.rangeOrder.filterMap
        (fun k => (lookupMap (buildResponses t.handler t.completionOrder) k).map
          (fun v => Msg.tool k v)) := rfl
    have hmsgids : msgToolIds (toolResultMsgs t) = t.rangeOrder := by
      rw [htr]
      exact msgToolIds_filterMap (buildResponses t.handler t.completionOrder)
        t.rangeOrder hall
    refine ⟨?_, ?_, ?_⟩
    · rw [hmsgids]
      exact hro.symm.nodup
        (by simpa [mapKeys] using
          nodup_mapKeys_buildResponses t.handler t.completionOrder)
    · intro k
      rw [hmsgids, hro.mem_iff, mem_mapKeys_buildResponses]
      constructor
      · intro h
        exact (hco.map ToolCall.id).mem_iff.mp h
      · intro h
        exact (hco.map ToolCall.id).mem_iff.mpr h
    · intro m hm
      rw [htr] at hm
      obtain ⟨k, _, hf⟩ := List.mem_filterMap.mp hm
      cases hL : lookupMap (buildResponses t.handler t.completionOrder) k with
      | none => rw [hL] at hf; simp at hf
      | some v =>
          rw [hL] at hf
          simp at hf
          rw [lookup_buildResponses] at hL
          exact ⟨k, v, hf.symm, hL⟩
  · refine ⟨?_, ?_, ?_, ?_, ?_⟩ <;> decide

/-- Witness for the universally quantified part of C10, instantiated at
the duplicate-id batch. -/
theorem tool_batch_map_keyed_by_id_collapses_duplicates_witness :
    (msgToolIds (toolResultMsgs duplicateIdTurn)).Nodup ∧
    (∀ k, k ∈ msgToolIds (toolResultMsgs duplicateIdTurn) ↔
      k ∈ duplicateIdTurn.toolCalls.map ToolCall.id) ∧
    (∀ m ∈ toolResultMsgs duplicateIdTurn, ∃ k v, m = Msg.tool k v ∧
      lastStore duplicateIdTurn.handler duplicateIdTurn.completionOrder k
        = some v) :=
  tool_batch_map_keyed_by_id_collapses_duplicates.1 duplicateIdTurn
    (by decide) (by decide)

/-! ## Claim C6 -/

/-- **C6 (amended).** With the stream intact, no memory-store failure is
ever fatal inside the loop: the tool turn continues when a tool-result
store fails, and the stop branch continues even when the assistant-message
store or the next-user-message store fails (the entry is merely dropped).
Only the two pre-loop stores — the system prompt and the *first* user
message — are `log.Fatal` on failure. -/
theorem store_failure_fatality_policy :
    (∀ t : TurnInput, t.streamErr = none → (runTurn t).isFatal = false) ∧
    (∀ (storeOk : String → String → Bool) (sp q : String),
      storeOk "system" sp = false ∨ storeOk "user" q = false →
      (preLoopStores storeOk sp q).isFatal = true) ∧
    (∀ t : TurnInput, t.streamErr = none → t.toolCalls = [] →
      t.finishReason = "stop" →
      runTurn t = .next [Msg.assistant t.content [], Msg.user t.nextUser]
        ((if t.storeOk "assistant" t.content
          then [("assistant", t.content)] else []) ++
         (if t.storeOk "user" t.nextUser
          then [("user", t.nextUser)] else []))) := by
  refine ⟨?_, ?_, ?_⟩
  · intro t h
    simp only [runTurn, h]
    by_cases hb : t.toolCalls = [] ∧ t.finishReason = "stop"
    · rw [if_pos hb]; rfl
    · rw [if_neg hb]; rfl
  · intro so sp q h
    rcases h with h | h
    · simp [preLoopStores, h, StepResult.isFatal]
    · by_cases hs : so "system" sp <;>
        simp [preLoopStores, h, hs, StepResult.isFatal]
  · intro t h1 h2 h3
    simp only [runTurn, h1]
    rw [if_pos ⟨h2, h3⟩]
    by_cases ha : t.storeOk "assistant" t.content <;>
      by_cases hu : t.storeOk "user" t.nextUser <;>
      simp [ha, hu]

/-- Witness for C6 (amended): a stop turn whose assistant store fails still
continues (dropping only that entry), while a failing pre-loop store is
fatal. -/
theorem store_failure_fatality_policy_witness :
    (runTurn assistantStoreFailTurn).isFatal = false ∧
    (preLoopStores (fun _ _ => false) "sys" "hello").isFatal = true ∧
    runTurn assistantStoreFailTurn = .next
      [Msg.assistant assistantStoreFailTurn.content [],
       Msg.user assistantStoreFailTurn.nextUser]
      ((if assistantStoreFailTurn.storeOk "assistant"
          assistantStoreFailTurn.content
        then [("assistant", assistantStoreFailTurn.content)] else []) ++
       (if assistantStoreFailTurn.storeOk "user"
          assistantStoreFailTurn.nextUser
        then [("user", assistantStoreFailTurn.nextUser)] else [])) :=
  ⟨store_failure_fatality_policy.1 assistantStoreFailTurn rfl,
   store_failure_fatality_policy.2.1 (fun _ _ => false) "sys" "hello"
     (Or.inl rfl),
   store_failure_fatality_policy.2.2 assistantStoreFailTurn rfl rfl rfl⟩

/-- **C6 (counterexample).** A failed store of the assistant message in the
stop branch does *not* terminate the session: `runMainWorkflow` merely logs
it (`log.Err`) and continues with the entry dropped, contradicting the
claim that a failed primary-message store is session-fatal. -/
theorem assistant_store_failure_not_fatal_counterexample :
    assistantStoreFailTurn.storeOk "assistant" assistantStoreFailTurn.content
      = false ∧
    runTurn assistantStoreFailTurn = .next
      [Msg.assistant "plan" [], Msg.user "go on"] [("user", "go on")] ∧
    (runTurn assistantStoreFailTurn).isFatal = false := by
  refine ⟨?_, ?_, ?_⟩ <;> decide

/-! ## Claim C7 -/

/-- **C7 (amended).** The memory-query exception exists only in the
sequential sub-agent loop (`Agent.Run`): there, every tool result is stored
to Session Memory tagged `role=tool` *except* the memory-query tool's,
which is never stored.  In the main workflow's concurrent batch dispatch,
by contrast, every completed call's result — including a memory-query
result — is stored whenever the store succeeds. -/
theorem tool_result_memory_write_policy :
    (∀ (handler : ToolCall → String) (storeOk : String → String → Bool)
       (toolCalls : List ToolCall),
      agentRunToolPass handler storeOk toolCalls =
        (toolCalls.map (fun tc => Msg.tool tc.id (handler tc)),
         toolCalls.filterMap (fun tc =>
           if tc.name = QueryMemoryToolName then none
           else if storeOk "tool" (handler tc) then some ("tool", handler tc)
           else none))) ∧
    (∀ (handler : ToolCall → String) (storeOk : String → String → Bool)
       (toolCalls : List ToolCall),
      (∀ tc ∈ toolCalls, tc.name = QueryMemoryToolName) →
      (agentRunToolPass handler storeOk toolCalls).2 = []) ∧
    (∀ t : TurnInput, ∀ tc ∈ t.completionOrder,
      t.storeOk "tool" (t.handler tc) = true →
      ("tool", t.handler tc) ∈ toolMemWrites t) := by
  refine ⟨?_, ?_, ?_⟩
  · intro handler storeOk toolCalls
    unfold agentRunToolPass
    rw [agentRunToolPass_from handler storeOk toolCalls ([], [])]
    simp
  · intro handler storeOk toolCalls h
    unfold agentRunToolPass
    rw [agentRunToolPass_from handler storeOk toolCalls ([], [])]
    simp only [List.nil_append]
    exact List.filterMap_eq_nil.mpr (fun tc htc => by simp [h tc htc])
  · intro t tc htc hs
    unfold toolMemWrites
    exact List.mem_filterMap.mpr ⟨tc, htc, by simp [hs]⟩

/-- Witness for C7 (amended): a sub-agent pass over one memory-query call
and one build call stores only the build result; the main workflow stores
the memory-query result. -/
theorem tool_result_memory_write_policy_witness :
    agentRunToolPass (fun tc => "r-" ++ tc.name) (fun _ _ => true)
      [⟨"1", "query_memory", "q"⟩, ⟨"2", "build_code", ""⟩] =
      ([Msg.tool "1" "r-query_memory", Msg.tool "2" "r-build_code"],
       [("tool", "r-build_code")]) ∧
    (agentRunToolPass (fun tc => "r-" ++ tc.name) (fun _ _ => true)
      [⟨"1", "query_memory", "q"⟩]).2 = [] ∧
    ("tool", queryMemoryTurn.handler ⟨"m1", "query_memory", "q"⟩)
      ∈ toolMemWrites queryMemoryTurn :=
  ⟨(tool_result_memory_write_policy.1 (fun tc => "r-" ++ tc.name)
      (fun _ _ => true)
      [⟨"1", "query_memory", "q"⟩, ⟨"2", "build_code", ""⟩]).trans (by decide),
   tool_result_memory_write_policy.2.1 (fun tc => "r-" ++ tc.name)
     (fun _ _ => true) [⟨"1", "query_memory", "q"⟩] (by decide),
   tool_result_memory_write_policy.2.2 queryMemoryTurn
     ⟨"m1", "query_memory", "q"⟩ (by decide) (by decide)⟩

/-- **C7 (counterexample).** In the main workflow's batch dispatch a
`query_memory` call's result *is* written to Session Memory (the store at
main.go line 243 is unconditional), so Session Memory is changed by a
memory-query tool call, contradicting the claimed exception. -/
theorem query_memory_result_stored_by_main_workflow_counterexample :
    queryMemoryTurn.toolCalls = [⟨"m1", "query_memory", "q"⟩] ∧
    runTurn queryMemoryTurn = .next
      [Msg.assistant "recalling" [⟨"m1", "query_memory", "q"⟩],
       Msg.tool "m1" "recalled stuff"]
      [("tool", "recalled stuff")] ∧
    toolMemWrites queryMemoryTurn ≠ [] := by
  refine ⟨?_, ?_, ?_⟩ <;> decide

/-! ## Claim C4 -/

/-- **C4 (amended).** An argument payload that fails `json.Unmarshal`
(syntactically invalid JSON) yields a descriptive failure string as an
ordinary Tool Result; but a payload that unmarshals to an object whose
`user_input` field is absent or not a string makes the handler *panic* at
the bare type assertion `args["user_input"].(string)` — it does not return
a failure string.  (Shown for both cited handlers, `GenerateOpenAPISpec`
and `QueryKnowledgeBase`.) -/
theorem malformed_arguments_policy :
    (∀ (env : OpenAPIEnv) (e : String), env.unmarshal = .error e →
      GenerateOpenAPISpec env
        = .ret ("Failed to unmarshal function arguments: " ++ e)) ∧
    (∀ (env : OpenAPIEnv) (args : List (String × JValue)),
      env.unmarshal = .ok args →
      (goMapIndex args "user_input").isStr = false →
      GenerateOpenAPISpec env = .panics "interface conversion") ∧
    (∀ (env : QueryKBEnv) (e : String), env.unmarshal = .error e →
      QueryKnowledgeBase env
        = .ret ("Failed to unmarshal function arguments: " ++ e)) ∧
    (∀ (env : QueryKBEnv) (args : List (String × JValue)),
      env.unmarshal = .ok args →
      (goMapIndex args "user_input").isStr = false →
      QueryKnowledgeBase env = .panics "interface conversion") := by
  refine ⟨?_, ?_, ?_, ?_⟩
  · intro env e h
    unfold GenerateOpenAPISpec
    rw [h]
  · intro env args hu hns
    simp only [GenerateOpenAPISpec, hu]
    cases hidx : goMapIndex args "user_input" with
    | str s => rw [hidx] at hns; simp [JValue.isStr] at hns
    | num q => rfl
    | boolean b => rfl
    | null => rfl
    | other => rfl
  · intro env e h
    unfold QueryKnowledgeBase
    rw [h]
  · intro env args hu hns
    simp only [QueryKnowledgeBase, hu]
    cases hidx : goMapIndex args "user_input" with
    | str s => rw [hidx] at hns; simp [JValue.isStr] at hns
    | num q => rfl
    | boolean b => rfl
    | null => rfl
    | other => rfl

/-- Witness for C4 (amended) at concrete payload outcomes: invalid JSON
yields a string result; an object missing the field, or binding it to a
number, panics. -/
theorem malformed_arguments_policy_witness :
    GenerateOpenAPISpec
      ⟨.error "unexpected end of JSON input", .ok "s", .ok (), .ok (), .ok ()⟩
      = .ret ("Failed to unmarshal function arguments: "
          ++ "unexpected end of JSON input") ∧
    GenerateOpenAPISpec
      ⟨.ok [("other_field", JValue.str "x")], .ok "s", .ok (), .ok (), .ok ()⟩
      = .panics "interface conversion" ∧
    QueryKnowledgeBase ⟨.error "invalid character", .ok []⟩
      = .ret ("Failed to unmarshal function arguments: "
          ++ "invalid character") ∧
    QueryKnowledgeBase ⟨.ok [("user_input", JValue.num 5)], .ok []⟩
      = .panics "interface conversion" :=
  ⟨malformed_arguments_policy.1 _ _ rfl,
   malformed_arguments_policy.2.1 _ [("other_field", JValue.str "x")] rfl
     (by decide),
   malformed_arguments_policy.2.2.1 _ _ rfl,
   malformed_arguments_policy.2.2.2 _ [("user_input", JValue.num 5)] rfl
     (by decide)⟩

/-- **C4 (counterexample).** The payload `{}` — syntactically valid JSON
lacking the required `user_input` field, whose unmarshal outcome is the
empty object — makes the dispatch panic rather than return a descriptive
failure string. -/
theorem missing_required_field_panics_counterexample :
    GenerateOpenAPISpec ⟨.ok [], .ok "spec", .ok (), .ok (), .ok ()⟩
      = .panics "interface conversion" ∧
    (GenerateOpenAPISpec ⟨.ok [], .ok "spec", .ok (), .ok (), .ok ()⟩).isRet
      = false ∧
    QueryKnowledgeBase ⟨.ok [], .ok []⟩ = .panics "interface conversion" :=
  ⟨rfl, rfl, rfl⟩

/-! ## Claim C5 -/

/-- **C5 (amended).** Tool-handler failures are mostly converted into
descriptive string results fed back as normal Tool Results — a failed
`go build` in `BuildCode` and a failed knowledge query in
`QueryKnowledgeBase` return strings, and the orchestrator's tool turn never
terminates the session when handlers return strings — but two failure
sites are `log.Fatal` and terminate the process: a failed LLM completion
inside `GenerateOpenAPISpec` and a failed database query inside
`ListTables`. -/
theorem tool_failure_fatality_sites :
    (∀ (env : BuildEnv) (a : String) (eo : String × String),
      env.absRoot = .ok a → env.build = .error eo →
      BuildCode env = .ret ("go build failed: " ++ eo.1 ++ "\n" ++ eo.2)) ∧
    (∀ (env : QueryKBEnv) (args : List (String × JValue)) (s e : String),
      env.unmarshal = .ok args → goMapIndex args "user_input" = .str s →
      env.ksQuery = .error e →
      QueryKnowledgeBase env = .ret ("Failed to query knowledge base: " ++ e)) ∧
    (∀ (env : OpenAPIEnv) (args : List (String × JValue)) (s e : String),
      env.unmarshal = .ok args → goMapIndex args "user_input" = .str s →
      env.completion = .error e →
      GenerateOpenAPISpec env = .fatal "Failed to get completion") ∧
    (∀ e : String, ListTables (.error e) = .fatal "Failed to query database") ∧
    (∀ t : TurnInput, t.streamErr = none →
      ¬(t.toolCalls = [] ∧ t.finishReason = "stop") →
      (runTurn t).isFatal = false) := by
  refine ⟨?_, ?_, ?_, ?_, ?_⟩
  · intro env a eo h1 h2
    unfold BuildCode
    rw [h1, h2]
  · intro env args s e h1 h2 h3
    simp [QueryKnowledgeBase, h1, h2, h3]
  · intro env args s e h1 h2 h3
    simp [GenerateOpenAPISpec, h1, h2, h3]
  · intro e
    rfl
  · intro t h1 h2
    simp only [runTurn, h1]
    rw [if_neg h2]
    rfl

/-- Witness for C5 (amended) at concrete failure outcomes. -/
theorem tool_failure_fatality_sites_witness :
    BuildCode ⟨.ok "/proj", .error ("exit status 1", "main.go:3: undefined")⟩
      = .ret ("go build failed: " ++ "exit status 1" ++ "\n"
          ++ "main.go:3: undefined") ∧
    QueryKnowledgeBase ⟨.ok [("user_input", JValue.str "dbs?")], .error "conn"⟩
      = .ret ("Failed to query knowledge base: " ++ "conn") ∧
    GenerateOpenAPISpec ⟨.ok [("user_input", JValue.str "app")],
        .error "reset", .ok (), .ok (), .ok ()⟩
      = .fatal "Failed to get completion" ∧
    ListTables (.error "db gone") = .fatal "Failed to query database" ∧
    (runTurn outOfOrderTurn).isFatal = false :=
  ⟨tool_failure_fatality_sites.1 _ "/proj" ("exit status 1",
      "main.go:3: undefined") rfl rfl,
   tool_failure_fatality_sites.2.1 _ [("user_input", JValue.str "dbs?")]
     "dbs?" "conn" rfl rfl rfl,
   tool_failure_fatality_sites.2.2.1 _ [("user_input", JValue.str "app")]
     "app" "reset" rfl rfl rfl,
   tool_failure_fatality_sites.2.2.2.1 "db gone",
   tool_failure_fatality_sites.2.2.2.2 outOfOrderTurn rfl (by decide)⟩

/-- **C5 (counterexample).** A failed LLM completion during
`GenerateOpenAPISpec` — a failure occurring during tool execution — is
`log.Fatal`: the process terminates instead of the failure being converted
into a Tool Result string; likewise a failed database query in
`ListTables`. -/
theorem llm_and_db_failures_terminate_process_counterexample :
    GenerateOpenAPISpec ⟨.ok [("user_input", JValue.str "contacts app")],
        .error "connection reset", .ok (), .ok (), .ok ()⟩
      = .fatal "Failed to get completion" ∧
    (GenerateOpenAPISpec ⟨.ok [("user_input", JValue.str "contacts app")],
        .error "connection reset", .ok (), .ok (), .ok ()⟩).isRet = false ∧
    ListTables (.error "db gone") = .fatal "Failed to query database" ∧
    (ListTables (.error "db gone")).isRet = false :=
  ⟨rfl, rfl, rfl, rfl⟩

end DoubleTab
